import Mathlib

/-!
Verification development for the `zk_volunteer_computing` repository.

The definitions below are a shallow embedding of the Rust sources:
  * `src/zkvc/src/utils.rs`   — the field element / decimal-string codec;
  * `src/zkvc/src/circuit.rs` — `ZkCircuitContext` and `ZkCircuit`;
  * `src/zkvc/src/server.rs`  — `ServerApp::verify_handler` and `ServerApp::verify`;
  * `src/examples/matrix-multiplication/src/server.rs` — the example
    valid-proof handler that rotates the challenge vector.

Field elements of `ark_bls12_381::Fr` are embedded as their canonical
natural-number representatives (naturals below the scalar-field modulus `r`).
-/

/-- The modulus `r` of the BLS12-381 scalar field `Fr` used throughout
`src/zkvc/src/server.rs` (a 255-bit prime). -/
def blsModulus : Nat :=
  52435875175126190479447740508185965837690552500527637822603658699938581184513

/-- Result of classifying one input byte inside `num_bigint`'s
`from_str_radix` (called by `BigUint::parse_bytes` in `field_from_string`):
`'0'..'9'` map to their value, `'a'..'z'` to `10..35`, `'A'..'Z'` to `10..35`,
`'_'` is skipped, anything else is invalid (the Rust code maps it to
`u8::MAX`, which always fails the `d < radix` test). -/
inductive ByteClass where
  | digit (d : Nat)
  | skip
  | invalid
deriving DecidableEq

/-- Classification of a single character, mirroring the `match b` in
`num_bigint`'s `from_str_radix` digit-normalisation loop. -/
def classifyByte (c : Char) : ByteClass :=
  if 48 ≤ c.toNat ∧ c.toNat ≤ 57 then ByteClass.digit (c.toNat - 48)
  else if 97 ≤ c.toNat ∧ c.toNat ≤ 122 then ByteClass.digit (c.toNat - 97 + 10)
  else if 65 ≤ c.toNat ∧ c.toNat ≤ 90 then ByteClass.digit (c.toNat - 65 + 10)
  else if c.toNat = 95 then ByteClass.skip
  else ByteClass.invalid

/-- The digit-collection loop of `from_str_radix`: skip underscores, accept a
digit only when it is below the radix, reject everything else. -/
def collectDigits (radix : Nat) : List Char → Option (List Nat)
  | [] => some []
  | c :: cs =>
    match classifyByte c with
    | ByteClass.skip => collectDigits radix cs
    | ByteClass.digit d =>
        if d < radix then (collectDigits radix cs).map (fun ds => d :: ds) else none
    | ByteClass.invalid => none

/-- Big-endian digit evaluation, as done by `num_bigint`'s
`from_radix_digits_be` on the collected digit values. -/
def fromDigitsBE (radix : Nat) (ds : List Nat) : Nat :=
  ds.foldl (fun acc d => acc * radix + d) 0

/-- The sign handling at the top of `from_str_radix`: a single leading `'+'`
is stripped, but `"++…"` is kept (and later rejected by the digit loop). -/
def stripPlus : List Char → List Char
  | [] => []
  | c :: tail =>
    if c = '+' then
      if tail.head? = some '+' then c :: tail else tail
    else c :: tail

/-- Embedding of `num_bigint::BigUint::from_str_radix` (which
`BigUint::parse_bytes` delegates to after a UTF-8 check): strip a single
leading plus, reject the empty string and a leading underscore, then collect
the digits and evaluate them big-endian. -/
def from_str_radix (radix : Nat) (s : List Char) : Option Nat :=
  let s1 := stripPlus s
  if s1 = [] then none
  else if s1.head? = some '_' then none
  else (collectDigits radix s1).map (fromDigitsBE radix)

/-- Embedding of `BigUint::parse_bytes(s.as_bytes(), radix)` on a Rust
string (always valid UTF-8, so the `from_utf8` step never fails). -/
def parse_bytes (s : String) (radix : Nat) : Option Nat :=
  from_str_radix radix s.data

/-- Embedding of `Fr::from_random_bytes(&big_int.to_bytes_le())` from
`field_from_string`, expressed on the value `big_int = n` itself:
`to_bytes_le` yields the minimal little-endian bytes of `n`; ark-ff 0.3's
`from_random_bytes` copies at most the first 32 of them into a zeroed buffer
(hence the value `n mod 2^256`), masks away the bits above
`MODULUS_BITS = 255` (hence a further `mod 2^255`), and finally `from_repr`
rejects any value that is not below the modulus. -/
def from_random_bytes_le (n : Nat) : Option Nat :=
  let m := n % 2 ^ 256 % 2 ^ 255
  if m < blsModulus then some m else none

/-- Embedding of `field_from_string` (src/zkvc/src/utils.rs, lines 11-16):
parse the decimal string with `BigUint::parse_bytes` (radix 10), then convert
the bytes with `F::from_random_bytes`; each step failing produces the
corresponding `anyhow` error message. -/
def field_from_string (s : String) : Except String Nat :=
  match parse_bytes s 10 with
  | none => Except.error "Failed to parse decimal string"
  | some n =>
    match from_random_bytes_le n with
    | none => Except.error "Failed to parse field element"
    | some v => Except.ok v

/-- Decimal digit `d` rendered as a character, as `BigUint`'s `Display`
does digit by digit. -/
def digitChar (d : Nat) : Char := Char.ofNat (48 + d)

/-- Big-endian decimal digit list of `n`, with `"0"` for zero — the digit
sequence produced by `BigUint::to_string`. -/
def natDecimalDigits (n : Nat) : List Nat :=
  if n = 0 then [0] else (Nat.digits 10 n).reverse

/-- Embedding of `field_to_string` (src/zkvc/src/utils.rs, lines 6-9): the
canonical representative of the field element (always below the modulus) is
printed as its plain decimal string, without leading zeros and with `"0"`
for the additive identity. -/
def field_to_string (v : Nat) : String :=
  String.mk ((natDecimalDigits v).map digitChar)

/-! Helper lemmas about the decimal codec. -/

theorem classifyByte_digitChar {d : Nat} (hd : d < 10) :
    classifyByte (digitChar d) = ByteClass.digit d := by
  interval_cases d <;> decide

theorem digitChar_ne_plus {d : Nat} (hd : d < 10) : digitChar d ≠ '+' := by
  interval_cases d <;> decide

theorem digitChar_ne_underscore {d : Nat} (hd : d < 10) : digitChar d ≠ '_' := by
  interval_cases d <;> decide

theorem collectDigits_map_digitChar (ds : List Nat) (h : ∀ d ∈ ds, d < 10) :
    collectDigits 10 (ds.map digitChar) = some ds := by
  induction ds with
  | nil => rfl
  | cons d tl ih =>
    have hd : d < 10 := h d (List.mem_cons_self d tl)
    have htl : ∀ x ∈ tl, x < 10 := fun x hx => h x (List.mem_cons_of_mem _ hx)
    simp [collectDigits, classifyByte_digitChar hd, hd, ih htl]

theorem fromDigitsBE_reverse (b : Nat) (l : List Nat) :
    fromDigitsBE b l.reverse = Nat.ofDigits b l := by
  induction l with
  | nil => rfl
  | cons d tl ih =>
    have hrev : (d :: tl).reverse = tl.reverse ++ [d] := by simp
    rw [hrev]
    unfold fromDigitsBE at ih ⊢
    rw [List.foldl_append, ih, Nat.ofDigits_cons]
    simp [List.foldl]
    ring

theorem natDecimalDigits_lt (v : Nat) : ∀ d ∈ natDecimalDigits v, d < 10 := by
  intro d hd
  unfold natDecimalDigits at hd
  split at hd
  · simp at hd
    omega
  · rw [List.mem_reverse] at hd
    exact Nat.digits_lt_base (by norm_num) hd

theorem fromDigitsBE_natDecimalDigits (v : Nat) :
    fromDigitsBE 10 (natDecimalDigits v) = v := by
  unfold natDecimalDigits
  split
  · simp [fromDigitsBE, List.foldl]
    omega
  · rw [fromDigitsBE_reverse]
    exact Nat.ofDigits_digits 10 v

theorem natDecimalDigits_ne_nil (v : Nat) : natDecimalDigits v ≠ [] := by
  unfold natDecimalDigits
  split
  · simp
  · simp [Nat.digits_ne_nil_iff_ne_zero]
    assumption

theorem blsModulus_lt_pow : blsModulus < 2 ^ 255 := by norm_num [blsModulus]

theorem from_random_bytes_le_of_lt (v : Nat) (hv : v < blsModulus) :
    from_random_bytes_le v = some v := by
  have hvlt : v < 2 ^ 255 := lt_trans hv blsModulus_lt_pow
  have hm : v % 2 ^ 256 % 2 ^ 255 = v := by
    rw [Nat.mod_eq_of_lt (lt_trans hvlt (by norm_num)), Nat.mod_eq_of_lt hvlt]
  show (if v % 2 ^ 256 % 2 ^ 255 < blsModulus then some (v % 2 ^ 256 % 2 ^ 255)
      else none) = some v
  rw [hm, if_pos hv]

/-- Round-trip of the codec on every canonical representative. -/
theorem field_from_to_string (v : Nat) (hv : v < blsModulus) :
    field_from_string (field_to_string v) = Except.ok v := by
  obtain ⟨d0, ds, hds⟩ : ∃ d0 ds, natDecimalDigits v = d0 :: ds := by
    cases h : natDecimalDigits v with
    | nil => exact absurd h (natDecimalDigits_ne_nil v)
    | cons a l => exact ⟨a, l, rfl⟩
  have hall : ∀ d ∈ natDecimalDigits v, d < 10 := natDecimalDigits_lt v
  have hd0 : d0 < 10 := hall d0 (by rw [hds]; exact List.mem_cons_self d0 ds)
  have hcollect : collectDigits 10 (digitChar d0 :: ds.map digitChar) =
      some (d0 :: ds) := by
    have h := collectDigits_map_digitChar (natDecimalDigits v) hall
    rw [hds] at h
    simpa using h
  have hval : fromDigitsBE 10 (d0 :: ds) = v := by
    rw [← hds]
    exact fromDigitsBE_natDecimalDigits v
  have hvlt : v < 2 ^ 255 := lt_trans hv blsModulus_lt_pow
  have hdata : (field_to_string v).data = digitChar d0 :: ds.map digitChar := by
    show (natDecimalDigits v).map digitChar = _
    rw [hds]
    rfl
  have hstrip : stripPlus (digitChar d0 :: ds.map digitChar) =
      digitChar d0 :: ds.map digitChar := by
    simp [stripPlus, digitChar_ne_plus hd0]
  have h1 : ¬(digitChar d0 :: ds.map digitChar = []) := by simp
  have h2 : ¬((digitChar d0 :: ds.map digitChar).head? = some '_') := by
    simp [digitChar_ne_underscore hd0]
  have hparse : parse_bytes (field_to_string v) 10 = some v := by
    simp only [parse_bytes, from_str_radix, hdata, hstrip, if_neg h1, if_neg h2,
      hcollect, Option.map_some', hval]
  simp only [field_from_string, hparse, from_random_bytes_le_of_lt v hv]

/-- C2: for every representable field element `v` (a natural below the
BLS12-381 scalar modulus), including zero, `field_from_string` inverts
`field_to_string` exactly, and the encoding is collision-free: distinct
representable elements encode to distinct strings. -/
theorem field_codec_roundtrip (v : Nat) (hv : v < blsModulus) :
    field_from_string (field_to_string v) = Except.ok v ∧
    ∀ w : Nat, w < blsModulus → field_to_string v = field_to_string w → v = w := by
  refine ⟨field_from_to_string v hv, ?_⟩
  intro w hw heq
  have h1 := field_from_to_string v hv
  have h2 := field_from_to_string w hw
  rw [heq] at h1
  rw [h1] at h2
  exact Except.ok.inj h2

/-- Concrete instantiation of `field_codec_roundtrip` at the additive
identity. -/
theorem field_codec_roundtrip_witness :
    (0 : Nat) < blsModulus ∧ field_from_string (field_to_string 0) = Except.ok 0 :=
  ⟨by norm_num [blsModulus], (field_codec_roundtrip 0 (by norm_num [blsModulus])).1⟩

/-! Error behaviour of `field_from_string`. -/

theorem isDigit_iff_toNat (c : Char) :
    c.isDigit = true ↔ 48 ≤ c.toNat ∧ c.toNat ≤ 57 := by
  simp only [Char.isDigit, Bool.and_eq_true, decide_eq_true_eq]
  constructor
  · rintro ⟨h1, h2⟩
    exact ⟨h1, h2⟩
  · rintro ⟨h1, h2⟩
    exact ⟨h1, h2⟩

theorem eq_underscore_iff_toNat (c : Char) : c = '_' ↔ c.toNat = 95 := by
  constructor
  · rintro rfl
    rfl
  · intro h
    apply Char.ext
    apply UInt32.ext
    exact h

theorem classifyByte_bad {c : Char} (h : ¬(c.isDigit = true ∨ c = '_')) :
    classifyByte c = ByteClass.invalid ∨
      ∃ d, classifyByte c = ByteClass.digit d ∧ 10 ≤ d := by
  push_neg at h
  obtain ⟨hdig, hus⟩ := h
  have hd : ¬(48 ≤ c.toNat ∧ c.toNat ≤ 57) := fun hh => hdig ((isDigit_iff_toNat c).mpr hh)
  have hu : ¬(c.toNat = 95) := fun hh => hus ((eq_underscore_iff_toNat c).mpr hh)
  unfold classifyByte
  by_cases h1 : 97 ≤ c.toNat ∧ c.toNat ≤ 122
  · right
    refine ⟨c.toNat - 97 + 10, ?_, by omega⟩
    rw [if_neg hd, if_pos h1]
  · by_cases h2 : 65 ≤ c.toNat ∧ c.toNat ≤ 90
    · right
      refine ⟨c.toNat - 65 + 10, ?_, by omega⟩
      rw [if_neg hd, if_neg h1, if_pos h2]
    · left
      rw [if_neg hd, if_neg h1, if_neg h2, if_neg hu]

theorem collectDigits_bad {l : List Char} {c : Char} (hc : c ∈ l)
    (hbad : ¬(c.isDigit = true ∨ c = '_')) : collectDigits 10 l = none := by
  induction l with
  | nil => cases hc
  | cons a tl ih =>
    rcases List.mem_cons.mp hc with rfl | htl
    · rcases classifyByte_bad hbad with hcl | ⟨d, hcl, hd⟩
      · simp [collectDigits, hcl]
      · have hnd : ¬(d < 10) := by omega
        simp [collectDigits, hcl, hnd]
    · cases hcl : classifyByte a with
      | skip => simp [collectDigits, hcl, ih htl]
      | invalid => simp [collectDigits, hcl]
      | digit d =>
        by_cases hd : d < 10
        · simp [collectDigits, hcl, hd, ih htl]
        · simp [collectDigits, hcl, hd]

theorem from_str_radix_eq (radix : Nat) (s : List Char) :
    from_str_radix radix s =
      if stripPlus s = [] then none
      else if (stripPlus s).head? = some '_' then none
      else (collectDigits radix (stripPlus s)).map (fromDigitsBE radix) := rfl

theorem stripPlus_of_head_ne {l : List Char} (h : l.head? ≠ some '+') :
    stripPlus l = l := by
  cases l with
  | nil => rfl
  | cons c tl =>
    have hc : ¬(c = '+') := by
      intro hh
      exact h (by rw [hh]; rfl)
    simp [stripPlus, hc]

/-- C10 counterexample: the string `"1_2"` contains `'_'`, which is not an
ASCII decimal digit, yet `field_from_string` accepts it — `num_bigint`'s
`from_str_radix` silently skips underscores — so the claim that every string
containing a non-digit character is rejected is false. -/
theorem field_from_string_nondigit_accepted :
    ('_' ∈ "1_2".data ∧ ¬('_'.isDigit = true)) ∧
      field_from_string "1_2" = Except.ok 12 :=
  ⟨⟨by decide, by decide⟩, by rfl⟩

/-- C10 (amended): `field_from_string` is a total function that returns an
error for the empty string and for any string that (after the parser's
single-leading-plus stripping) contains a character that is neither an ASCII
decimal digit nor an underscore; it accepts leading zeros, decoding a
zero-prefixed digit string to the same field element as the unprefixed
string, so decoding is not injective (`"07"` and `"7"` both decode to 7). -/
theorem field_from_string_error_behavior (s : String) :
    field_from_string "" = Except.error "Failed to parse decimal string"
    ∧ ((∃ c ∈ stripPlus s.data, ¬(c.isDigit = true ∨ c = '_')) →
        field_from_string s = Except.error "Failed to parse decimal string")
    ∧ (∀ n : Nat, s.data.head? ≠ some '+' → field_from_string s = Except.ok n →
        field_from_string (String.mk ('0' :: s.data)) = Except.ok n)
    ∧ field_from_string "07" = Except.ok 7
    ∧ field_from_string "7" = Except.ok 7
    ∧ "07" ≠ "7" := by
  refine ⟨by rfl, ?_, ?_, by rfl, by rfl, by decide⟩
  · rintro ⟨c, hc, hbad⟩
    have hne : ¬(stripPlus s.data = []) := by
      intro he
      rw [he] at hc
      cases hc
    have hparse : parse_bytes s 10 = none := by
      unfold parse_bytes
      rw [from_str_radix_eq, if_neg hne]
      by_cases hh : (stripPlus s.data).head? = some '_'
      · rw [if_pos hh]
      · rw [if_neg hh, collectDigits_bad hc hbad]
        rfl
    unfold field_from_string
    rw [hparse]
  · intro n hplus hok
    have hstrip : stripPlus s.data = s.data := stripPlus_of_head_ne hplus
    obtain ⟨m, hp, hr⟩ :
        ∃ m, parse_bytes s 10 = some m ∧ from_random_bytes_le m = some n := by
      cases hp : parse_bytes s 10 with
      | none =>
          simp only [field_from_string, hp] at hok
          cases hok
      | some m =>
          simp only [field_from_string, hp] at hok
          cases hr : from_random_bytes_le m with
          | none =>
              simp only [hr] at hok
              cases hok
          | some v =>
              simp only [hr] at hok
              cases hok
              exact ⟨m, rfl, hr⟩
    obtain ⟨ds, hds, hval⟩ :
        ∃ ds, collectDigits 10 s.data = some ds ∧ fromDigitsBE 10 ds = m := by
      unfold parse_bytes at hp
      rw [from_str_radix_eq, hstrip] at hp
      by_cases he : s.data = []
      · rw [if_pos he] at hp
        cases hp
      · rw [if_neg he] at hp
        by_cases hh : s.data.head? = some '_'
        · rw [if_pos hh] at hp
          cases hp
        · rw [if_neg hh] at hp
          exact Option.map_eq_some'.mp hp
    have hz : classifyByte '0' = ByteClass.digit 0 := by decide
    have hcol0 : collectDigits 10 ('0' :: s.data) = some (0 :: ds) := by
      simp [collectDigits, hz, hds]
    have hstrip0 : stripPlus ('0' :: s.data) = '0' :: s.data := by
      simp [stripPlus]
    have hparse0 : parse_bytes (String.mk ('0' :: s.data)) 10 = some m := by
      unfold parse_bytes
      rw [from_str_radix_eq]
      have hd : (String.mk ('0' :: s.data)).data = '0' :: s.data := rfl
      rw [hd, hstrip0]
      rw [if_neg (by simp), if_neg (by simp)]
      rw [hcol0]
      have : fromDigitsBE 10 (0 :: ds) = fromDigitsBE 10 ds := rfl
      rw [Option.map_some', this, hval]
    simp only [field_from_string, hparse0, hr]

/-- Concrete instantiations of `field_from_string_error_behavior`: the
rejection of `"1a"` (a letter survives plus-stripping) and the acceptance of
the zero-prefixed `"07"`. -/
theorem field_from_string_error_behavior_witness :
    field_from_string "1a" = Except.error "Failed to parse decimal string"
    ∧ field_from_string (String.mk ('0' :: "7".data)) = Except.ok 7 :=
  ⟨(field_from_string_error_behavior "1a").2.1 ⟨'a', by decide, by decide⟩,
   (field_from_string_error_behavior "7").2.2.1 7 (by decide) (by rfl)⟩

/-! Embedding of `ZkCircuitContext` and `ZkCircuit`
(src/zkvc/src/circuit.rs).  The constraint system itself is opaque: variable
allocation (`FpVar::new_input` / `FpVar::new_witness`) is an abstract
function supplied per call, returning a handle or a `SynthesisError`; error
and handle types are type parameters. -/

structure ZkCircuitContext (F : Type) where
  public_inputs : List F

/-- Method `ZkCircuitContext::new`: starts with an empty public-input log. -/
def ZkCircuitContext.new (F : Type) : ZkCircuitContext F :=
  { public_inputs := [] }

/-- Method `ZkCircuitContext::new_public_input`: evaluate the thunk (`f()?`); on
failure the context is untouched and the error is returned; on success the
value is pushed on the log and then handed to the constraint-system
allocator (`FpVar::new_input`), whose own result is returned. -/
def ZkCircuitContext.new_public_input {F E V : Type} (ctx : ZkCircuitContext F)
    (f : Except E F) (alloc : F → Except E V) :
    ZkCircuitContext F × Except E V :=
  match f with
  | Except.error e => (ctx, Except.error e)
  | Except.ok value =>
      ({ public_inputs := ctx.public_inputs ++ [value] }, alloc value)

/-- Method `ZkCircuitContext::new_witness`: takes `&self`, hands the thunk to
`FpVar::new_witness` unevaluated, and never touches the log. -/
def ZkCircuitContext.new_witness {F E V : Type} (ctx : ZkCircuitContext F)
    (f : Except E F) (alloc : Except E F → Except E V) :
    ZkCircuitContext F × Except E V :=
  (ctx, alloc f)

/-- Method `ZkCircuitContext::get_public_inputs`: consumes the context and returns
the log. -/
def ZkCircuitContext.get_public_inputs {F : Type} (ctx : ZkCircuitContext F) :
    List F :=
  ctx.public_inputs

/-- One call a constraint generator can make on the context. -/
inductive CircuitOp (F E V : Type) where
  | publicInput (thunk : Except E F) (alloc : F → Except E V)
  | witness (thunk : Except E F) (alloc : Except E F → Except E V)

/-- Effect of one call on the context state. -/
def applyOp {F E V : Type} (ctx : ZkCircuitContext F) :
    CircuitOp F E V → ZkCircuitContext F
  | CircuitOp.publicInput thunk alloc => (ctx.new_public_input thunk alloc).1
  | CircuitOp.witness thunk alloc => (ctx.new_witness thunk alloc).1

/-- Run a sequence of context calls from a starting state. -/
def runOps {F E V : Type} (ctx : ZkCircuitContext F)
    (ops : List (CircuitOp F E V)) : ZkCircuitContext F :=
  ops.foldl applyOp ctx

/-- The values of the `publicInput` calls whose thunks succeed, in call
order. -/
def successfulPublicValues {F E V : Type} : List (CircuitOp F E V) → List F
  | [] => []
  | CircuitOp.publicInput (Except.ok v) _ :: rest =>
      v :: successfulPublicValues rest
  | CircuitOp.publicInput (Except.error _) _ :: rest =>
      successfulPublicValues rest
  | CircuitOp.witness _ _ :: rest => successfulPublicValues rest

theorem runOps_public_inputs {F E V : Type} (ops : List (CircuitOp F E V)) :
    ∀ ctx : ZkCircuitContext F,
      (runOps ctx ops).public_inputs =
        ctx.public_inputs ++ successfulPublicValues ops := by
  induction ops with
  | nil => intro ctx; simp [runOps, successfulPublicValues]
  | cons op rest ih =>
    intro ctx
    cases op with
    | publicInput thunk alloc =>
      cases thunk with
      | ok v =>
        have h1 : runOps ctx (CircuitOp.publicInput (Except.ok v) alloc :: rest) =
            runOps { public_inputs := ctx.public_inputs ++ [v] } rest := rfl
        rw [h1, ih]
        simp [successfulPublicValues]
      | error e =>
        have h1 : runOps ctx (CircuitOp.publicInput (Except.error e) alloc :: rest) =
            runOps ctx rest := rfl
        rw [h1, ih]
        simp [successfulPublicValues]
    | witness thunk alloc =>
      have h1 : runOps ctx (CircuitOp.witness thunk alloc :: rest) =
          runOps ctx rest := rfl
      rw [h1, ih]
      simp [successfulPublicValues]

/-- C1: over any sequence of context calls, each `new_public_input` whose
thunk succeeds appends exactly its value to the end of the log (a failing
thunk leaves the log alone), `new_witness` never modifies the log, and the
finalized log is exactly the successful public-input values in declaration
order. -/
theorem circuit_context_log (F E V : Type) :
    (∀ ops : List (CircuitOp F E V),
        (runOps (ZkCircuitContext.new F) ops).public_inputs =
          successfulPublicValues ops)
    ∧ (∀ (ctx : ZkCircuitContext F) (v : F) (alloc : F → Except E V),
        (ctx.new_public_input (Except.ok v) alloc).1.public_inputs =
          ctx.public_inputs ++ [v])
    ∧ (∀ (ctx : ZkCircuitContext F) (e : E) (alloc : F → Except E V),
        (ctx.new_public_input (Except.error e) alloc).1 = ctx)
    ∧ (∀ (ctx : ZkCircuitContext F) (f : Except E F)
          (alloc : Except E F → Except E V),
        (ctx.new_witness f alloc).1 = ctx) := by
  refine ⟨?_, ?_, ?_, ?_⟩
  · intro ops
    rw [runOps_public_inputs]
    rfl
  · intro ctx v alloc
    rfl
  · intro ctx e alloc
    rfl
  · intro ctx f alloc
    rfl

/-- Method `ZkCircuit::generate_constraints` (src/zkvc/src/circuit.rs, lines 80-92):
build a fresh context, run the boxed generator over it; if it fails the error
propagates (the shared `public_inputs` vector behind the mutex is left
alone); if it succeeds the shared vector is assigned (`*lock = …`) the
context's log.  The pair returned is (call result, shared vector after the
call). -/
def ZkCircuit.generate_constraints {F E : Type}
    (generator : ZkCircuitContext F → Except E (ZkCircuitContext F))
    (shared_public_inputs : List F) : Except E Unit × List F :=
  match generator (ZkCircuitContext.new F) with
  | Except.error e => (Except.error e, shared_public_inputs)
  | Except.ok ctx => (Except.ok (), ctx.get_public_inputs)

/-- C9: a successful run of `ZkCircuit::generate_constraints` replaces the
shared public-inputs vector with exactly the context's log — the initial
contents do not survive (same result from any two initial contents) — and a
failing run leaves the shared vector unchanged and propagates the error. -/
theorem generate_constraints_overwrites {F E : Type}
    (generator : ZkCircuitContext F → Except E (ZkCircuitContext F))
    (shared shared2 : List F) :
    (∀ ctx : ZkCircuitContext F, generator (ZkCircuitContext.new F) = Except.ok ctx →
        (ZkCircuit.generate_constraints generator shared).2 = ctx.public_inputs ∧
        (ZkCircuit.generate_constraints generator shared).2 =
          (ZkCircuit.generate_constraints generator shared2).2)
    ∧ (∀ e : E, generator (ZkCircuitContext.new F) = Except.error e →
        (ZkCircuit.generate_constraints generator shared).2 = shared ∧
        (ZkCircuit.generate_constraints generator shared).1 = Except.error e) := by
  constructor
  · intro ctx hok
    simp [ZkCircuit.generate_constraints, hok, ZkCircuitContext.get_public_inputs]
  · intro e herr
    simp [ZkCircuit.generate_constraints, herr]

/-- A concrete generator for the witness below: logs the single public
input `3` (its allocator always succeeds). -/
def exampleGenerator : ZkCircuitContext Nat → Except Unit (ZkCircuitContext Nat) :=
  fun ctx =>
    Except.ok
      (applyOp ctx
        (CircuitOp.publicInput (E := Unit) (V := Unit) (Except.ok 3)
          (fun _ => Except.ok ())))

/-- Concrete instantiation of `generate_constraints_overwrites`: a generator
that logs the single public input `3` overwrites a shared vector previously
holding `[9, 9]`. -/
theorem generate_constraints_overwrites_witness :
    (ZkCircuit.generate_constraints exampleGenerator [9, 9]).2 = [3] :=
  ((generate_constraints_overwrites exampleGenerator [9, 9] []).1
    { public_inputs := [3] } (by rfl)).1

/-! Embedding of `ServerApp` (src/zkvc/src/server.rs).  The cryptographic
pipeline inside `ServerApp::verify` — base64 decoding of the proof, Groth16
proof deserialization, and `Groth16::verify` itself — is opaque to this
repository and is carried as abstract function fields; the public-input
decoding uses the `field_from_string` embedding above.  The handler run is
recorded as a list of events so that which callbacks fired (and with which
arguments) is part of the model. -/

/-- Wire response (src/zkvc/src/response.rs). -/
inductive VerificationResponse where
  | valid (result : Option (List String))
  | invalid (reason : String)
  | error (error : String)
deriving DecidableEq

/-- An actix `HttpResponse`, reduced to its status code and JSON body. -/
structure HttpResponse where
  status : Nat
  body : VerificationResponse
deriving DecidableEq

/-- Structure `ProofRequest` (src/zkvc/src/circuit.rs): client id, base64 proof,
encoded public inputs. -/
structure ProofRequest where
  client_id : String
  proof : String
  public_inputs : List String

/-- Observable events of one request: the external verifier being invoked,
and each reaction handler being invoked with its arguments. -/
inductive Event where
  | verifierInvoked (inputs : List Nat)
  | validFired (client_id : String) (inputs : List Nat)
  | invalidFired (client_id : String) (reason : String)
  | errorFired (client_id : String) (error : String)
deriving DecidableEq

/-- Embedding of `request.public_inputs.iter().map(field_from_string).collect::<Result<…>>()`:
decode each string in order, stopping at the first failure. -/
def decode_inputs : List String → Except String (List Nat)
  | [] => Except.ok []
  | s :: rest =>
    match field_from_string s with
    | Except.error e => Except.error e
    | Except.ok v =>
      match decode_inputs rest with
      | Except.error e => Except.error e
      | Except.ok vs => Except.ok (v :: vs)

/-- The server application: the three optional reaction handlers plus the
opaque cryptographic pipeline (`B` = decoded proof bytes, `P` = the
deserialized Groth16 proof). -/
structure ServerApp (B P : Type) where
  valid_proof_handler : Option (String → List Nat → Except String Unit)
  invalid_proof_handler : Option (String → String → Except String Unit)
  error_handler : Option (String → String → Except String Unit)
  base64_decode : String → Except String B
  deserialize_proof : B → Except String P
  groth16_verify : List Nat → P → Except String Bool

/-- Method `ServerApp::verify`: base64-decode the proof, deserialize it, decode the
public inputs, then call `Groth16::verify`; any failing step propagates with
`?`.  The event list records whether the external verifier was actually
reached. -/
def ServerApp.verify {B P : Type} (app : ServerApp B P) (req : ProofRequest) :
    Except String Bool × List Event :=
  match app.base64_decode req.proof with
  | Except.error e => (Except.error e, [])
  | Except.ok bytes =>
    match app.deserialize_proof bytes with
    | Except.error e => (Except.error e, [])
    | Except.ok proof =>
      match decode_inputs req.public_inputs with
      | Except.error e => (Except.error e, [])
      | Except.ok inputs =>
          (app.groth16_verify inputs proof, [Event.verifierInvoked inputs])

/-- Invocation of the optional error handler: its own result is only
logged, never propagated. -/
def fireError {B P : Type} (app : ServerApp B P) (cid e : String) : List Event :=
  match app.error_handler with
  | some _ => [Event.errorFired cid e]
  | none => []

/-- Method `ServerApp::verify_handler` (src/zkvc/src/server.rs, lines 95-175): the
whole request pipeline, returning the HTTP response and the events of the
run.  Input decoding happens first; a failure there short-circuits to a 500
`Error` response after (optionally) firing the error handler.  Otherwise the
proof is verified; `Ok(true)` dispatches to the valid-proof handler (whose
failure degrades the response to a 500 `Error`), `Ok(false)` to the
invalid-proof handler with the default reason, and `Err` to the error
handler. -/
def ServerApp.verify_handler {B P : Type} (app : ServerApp B P)
    (req : ProofRequest) : HttpResponse × List Event :=
  match decode_inputs req.public_inputs with
  | Except.error e =>
      ({ status := 500, body := VerificationResponse.error e },
        fireError app req.client_id e)
  | Except.ok inputs =>
    match app.verify req with
    | (Except.ok true, evs) =>
      match app.valid_proof_handler with
      | some handler =>
        match handler req.client_id inputs with
        | Except.error e =>
            ({ status := 500, body := VerificationResponse.error e },
              evs ++ [Event.validFired req.client_id inputs])
        | Except.ok _ =>
            ({ status := 200,
               body := VerificationResponse.valid (some req.public_inputs) },
              evs ++ [Event.validFired req.client_id inputs])
      | none =>
          ({ status := 200,
             body := VerificationResponse.valid (some req.public_inputs) },
            evs)
    | (Except.ok false, evs) =>
      match app.invalid_proof_handler with
      | some handler =>
        match handler req.client_id "Proof verification failed" with
        | Except.error e =>
            ({ status := 500, body := VerificationResponse.error e },
              evs ++ [Event.invalidFired req.client_id "Proof verification failed"])
        | Except.ok _ =>
            ({ status := 400,
               body := VerificationResponse.invalid "Proof verification failed" },
              evs ++ [Event.invalidFired req.client_id "Proof verification failed"])
      | none =>
          ({ status := 400,
             body := VerificationResponse.invalid "Proof verification failed" },
            evs)
    | (Except.error e, evs) =>
        ({ status := 500, body := VerificationResponse.error e },
          evs ++ fireError app req.client_id e)

/-- Events that are reaction-handler invocations (as opposed to the
external verifier call). -/
def isHandlerEvent : Event → Bool
  | Event.verifierInvoked _ => false
  | Event.validFired _ _ => true
  | Event.invalidFired _ _ => true
  | Event.errorFired _ _ => true

theorem verify_filter_handlers {B P : Type} (app : ServerApp B P)
    (req : ProofRequest) :
    ((app.verify req).2).filter isHandlerEvent = [] := by
  cases h1 : app.base64_decode req.proof with
  | error e => simp [ServerApp.verify, h1]
  | ok bytes =>
    cases h2 : app.deserialize_proof bytes with
    | error e => simp [ServerApp.verify, h1, h2]
    | ok proof =>
      cases h3 : decode_inputs req.public_inputs with
      | error e => simp [ServerApp.verify, h1, h2, h3]
      | ok inputs => simp [ServerApp.verify, h1, h2, h3, isHandlerEvent]

theorem decode_inputs_error_of_mem {l : List String} {s : String}
    (hs : s ∈ l) {msg : String} (hf : field_from_string s = Except.error msg) :
    ∃ e, decode_inputs l = Except.error e := by
  induction l with
  | nil => cases hs
  | cons a tl ih =>
    rcases List.mem_cons.mp hs with rfl | htl
    · exact ⟨msg, by simp [decode_inputs, hf]⟩
    · cases ha : field_from_string a with
      | error e => exact ⟨e, by simp [decode_inputs, ha]⟩
      | ok v =>
        obtain ⟨e, he⟩ := ih htl
        exact ⟨e, by simp [decode_inputs, ha, he]⟩

/-- C3: when some public-input string fails to decode, the request
short-circuits to a 500 `Error` response, the error handler fires exactly
when it is registered, and the external verifier is never invoked. -/
theorem decode_failure_short_circuits {B P : Type} (app : ServerApp B P)
    (req : ProofRequest)
    (h : ∃ s ∈ req.public_inputs, ∃ msg, field_from_string s = Except.error msg) :
    ∃ e, decode_inputs req.public_inputs = Except.error e
    ∧ (app.verify_handler req).1 =
        { status := 500, body := VerificationResponse.error e }
    ∧ (∀ inputs, Event.verifierInvoked inputs ∉ (app.verify_handler req).2)
    ∧ (app.error_handler.isSome →
        (app.verify_handler req).2 = [Event.errorFired req.client_id e])
    ∧ (app.error_handler = none → (app.verify_handler req).2 = []) := by
  obtain ⟨s, hs, msg, hf⟩ := h
  obtain ⟨e, hdec⟩ := decode_inputs_error_of_mem hs hf
  have hvh : app.verify_handler req =
      ({ status := 500, body := VerificationResponse.error e },
        fireError app req.client_id e) := by
    simp [ServerApp.verify_handler, hdec]
  refine ⟨e, hdec, by rw [hvh], ?_, ?_, ?_⟩
  · intro inputs
    rw [hvh]
    cases heh : app.error_handler with
    | none => simp [fireError, heh]
    | some handler => simp [fireError, heh]
  · intro hsome
    rw [hvh]
    cases heh : app.error_handler with
    | none => rw [heh] at hsome; cases hsome
    | some handler => simp [fireError, heh]
  · intro hnone
    rw [hvh]
    simp [fireError, hnone]

/-- A concrete server application used in the instantiations below: the
opaque pipeline always succeeds with verification result `vres`, and the
three handlers are supplied directly. -/
def mkApp (vres : Except String Bool)
    (vh : Option (String → List Nat → Except String Unit))
    (ih : Option (String → String → Except String Unit))
    (eh : Option (String → String → Except String Unit)) : ServerApp Unit Unit where
  valid_proof_handler := vh
  invalid_proof_handler := ih
  error_handler := eh
  base64_decode := fun _ => Except.ok ()
  deserialize_proof := fun _ => Except.ok ()
  groth16_verify := fun _ _ => vres

/-- Concrete instantiation of `decode_failure_short_circuits`: a request
whose only public input is the non-numeric `"x"`. -/
theorem decode_failure_short_circuits_witness :
    ∃ e,
      ((mkApp (Except.ok true) none none
            (some (fun _ _ => Except.ok ()))).verify_handler
          { client_id := "c", proof := "p", public_inputs := ["x"] }).1 =
        { status := 500, body := VerificationResponse.error e }
      ∧ ∀ inputs,
          Event.verifierInvoked inputs ∉
            ((mkApp (Except.ok true) none none
                (some (fun _ _ => Except.ok ()))).verify_handler
              { client_id := "c", proof := "p", public_inputs := ["x"] }).2 := by
  obtain ⟨e, _, h1, h2, _, _⟩ :=
    decode_failure_short_circuits
      (mkApp (Except.ok true) none none (some (fun _ _ => Except.ok ())))
      { client_id := "c", proof := "p", public_inputs := ["x"] }
      ⟨"x", by decide, "Failed to parse decimal string", by rfl⟩
  exact ⟨e, h1, h2⟩

/-- C4: per request at most one reaction handler fires, and it fires at most
once (the filtered handler-event list has length at most one); when all
three handlers are registered exactly one fires; and when the handler for
the reached outcome is not registered the request still completes with that
outcome — the response for the outcome is produced as if the handler had
succeeded. -/
theorem handler_dispatch_once {B P : Type} (app : ServerApp B P)
    (req : ProofRequest) :
    (((app.verify_handler req).2).filter isHandlerEvent).length ≤ 1
    ∧ (app.valid_proof_handler.isSome → app.invalid_proof_handler.isSome →
        app.error_handler.isSome →
        (((app.verify_handler req).2).filter isHandlerEvent).length = 1)
    ∧ (∀ e, decode_inputs req.public_inputs = Except.error e →
        app.error_handler = none →
        app.verify_handler req =
          ({ status := 500, body := VerificationResponse.error e }, []))
    ∧ (∀ inputs, decode_inputs req.public_inputs = Except.ok inputs →
        (app.verify req).1 = Except.ok true → app.valid_proof_handler = none →
        (app.verify_handler req).1 =
          { status := 200,
            body := VerificationResponse.valid (some req.public_inputs) })
    ∧ (∀ inputs, decode_inputs req.public_inputs = Except.ok inputs →
        (app.verify req).1 = Except.ok false → app.invalid_proof_handler = none →
        (app.verify_handler req).1 =
          { status := 400,
            body := VerificationResponse.invalid "Proof verification failed" })
    ∧ (∀ inputs e, decode_inputs req.public_inputs = Except.ok inputs →
        (app.verify req).1 = Except.error e → app.error_handler = none →
        (app.verify_handler req).1 =
          { status := 500, body := VerificationResponse.error e }) := by
  have hvf := verify_filter_handlers app req
  cases hdec : decode_inputs req.public_inputs with
  | error e =>
    cases heh : app.error_handler with
    | none =>
      refine ⟨?_, ?_, ?_, ?_, ?_, ?_⟩ <;>
        simp [ServerApp.verify_handler, hdec, fireError, heh, isHandlerEvent]
    | some handler =>
      refine ⟨?_, ?_, ?_, ?_, ?_, ?_⟩ <;>
        simp [ServerApp.verify_handler, hdec, fireError, heh, isHandlerEvent]
  | ok inputs0 =>
    cases hv : app.verify req with
    | mk r evs =>
      rw [hv] at hvf
      simp only at hvf
      cases r with
      | ok b =>
        cases b with
        | true =>
          cases hvh : app.valid_proof_handler with
          | none =>
            refine ⟨?_, ?_, ?_, ?_, ?_, ?_⟩ <;>
              simp [ServerApp.verify_handler, hdec, hv, hvh, hvf, isHandlerEvent]
          | some handler =>
            cases hres : handler req.client_id inputs0 with
            | error e =>
              refine ⟨?_, ?_, ?_, ?_, ?_, ?_⟩ <;>
                simp [ServerApp.verify_handler, hdec, hv, hvh, hres, hvf,
                  isHandlerEvent]
            | ok u =>
              refine ⟨?_, ?_, ?_, ?_, ?_, ?_⟩ <;>
                simp [ServerApp.verify_handler, hdec, hv, hvh, hres, hvf,
                  isHandlerEvent]
        | false =>
          cases hih : app.invalid_proof_handler with
          | none =>
            refine ⟨?_, ?_, ?_, ?_, ?_, ?_⟩ <;>
              simp [ServerApp.verify_handler, hdec, hv, hih, hvf, isHandlerEvent]
          | some handler =>
            cases hres : handler req.client_id "Proof verification failed" with
            | error e =>
              refine ⟨?_, ?_, ?_, ?_, ?_, ?_⟩ <;>
                simp [ServerApp.verify_handler, hdec, hv, hih, hres, hvf,
                  isHandlerEvent]
            | ok u =>
              refine ⟨?_, ?_, ?_, ?_, ?_, ?_⟩ <;>
                simp [ServerApp.verify_handler, hdec, hv, hih, hres, hvf,
                  isHandlerEvent]
      | error e =>
        cases heh : app.error_handler with
        | none =>
          refine ⟨?_, ?_, ?_, ?_, ?_, ?_⟩ <;>
            simp [ServerApp.verify_handler, hdec, hv, heh, hvf, fireError,
              isHandlerEvent]
        | some handler =>
          refine ⟨?_, ?_, ?_, ?_, ?_, ?_⟩ <;>
            simp [ServerApp.verify_handler, hdec, hv, heh, hvf, fireError,
              isHandlerEvent]

/-- Concrete instantiation of `handler_dispatch_once`: with all three
handlers registered and a verifier that accepts, exactly one handler event
is recorded. -/
theorem handler_dispatch_once_witness :
    ((((mkApp (Except.ok true) (some (fun _ _ => Except.ok ()))
          (some (fun _ _ => Except.ok ()))
          (some (fun _ _ => Except.ok ()))).verify_handler
        { client_id := "c", proof := "p", public_inputs := ["7"] }).2).filter
        isHandlerEvent).length = 1 :=
  (handler_dispatch_once
      (mkApp (Except.ok true) (some (fun _ _ => Except.ok ()))
        (some (fun _ _ => Except.ok ())) (some (fun _ _ => Except.ok ())))
      { client_id := "c", proof := "p", public_inputs := ["7"] }).2.1
    (by rfl) (by rfl) (by rfl)

/-- C6: when the verifier answers `true` but the registered valid-proof
handler fails, the client receives a 500 `Error` response carrying the
handler's failure message — never the `Valid` outcome. -/
theorem valid_handler_failure_degrades {B P : Type} (app : ServerApp B P)
    (req : ProofRequest) (inputs : List Nat)
    (handler : String → List Nat → Except String Unit) (msg : String)
    (hdec : decode_inputs req.public_inputs = Except.ok inputs)
    (hver : (app.verify req).1 = Except.ok true)
    (hvh : app.valid_proof_handler = some handler)
    (hfail : handler req.client_id inputs = Except.error msg) :
    (app.verify_handler req).1 =
      { status := 500, body := VerificationResponse.error msg }
    ∧ ∀ r, ((app.verify_handler req).1).body ≠ VerificationResponse.valid r := by
  cases hv : app.verify req with
  | mk r evs =>
    have hr : r = Except.ok true := by
      rw [hv] at hver
      exact hver
    subst hr
    constructor
    · simp [ServerApp.verify_handler, hdec, hv, hvh, hfail]
    · intro r
      simp [ServerApp.verify_handler, hdec, hv, hvh, hfail]

/-- Concrete instantiation of `valid_handler_failure_degrades`: an accepting
verifier with a valid-proof handler that fails with `"boom"`. -/
theorem valid_handler_failure_degrades_witness :
    ((mkApp (Except.ok true) (some (fun _ _ => Except.error "boom")) none
          none).verify_handler
        { client_id := "c", proof := "p", public_inputs := ["7"] }).1 =
      { status := 500, body := VerificationResponse.error "boom" } :=
  (valid_handler_failure_degrades
      (mkApp (Except.ok true) (some (fun _ _ => Except.error "boom")) none none)
      { client_id := "c", proof := "p", public_inputs := ["7"] } [7]
      (fun _ _ => Except.error "boom") "boom" (by rfl) (by rfl) (by rfl)
      (by rfl)).1

/-- C7 counterexample: on a rejected proof the code invokes the invalid
handler with the capitalised reason `"Proof verification failed"`, never the
claimed all-lowercase `"proof verification failed"`; and when that handler
itself fails the request does not respond `Invalid` at all but degrades to a
500 `Error` with the handler's message. -/
theorem invalid_reason_capitalisation :
    (mkApp (Except.ok false) none (some (fun _ _ => Except.error "boom"))
          none).verify_handler
        { client_id := "c", proof := "p", public_inputs := ["7"] } =
      ({ status := 500, body := VerificationResponse.error "boom" },
        [Event.verifierInvoked [7],
         Event.invalidFired "c" "Proof verification failed"])
    ∧ Event.invalidFired "c" "proof verification failed" ∉
        ((mkApp (Except.ok false) none (some (fun _ _ => Except.error "boom"))
            none).verify_handler
          { client_id := "c", proof := "p", public_inputs := ["7"] }).2
    ∧ "Proof verification failed" ≠ "proof verification failed" :=
  ⟨by rfl, by decide, by decide⟩

/-- C7 (amended): when the verifier returns `false`, the server invokes the
registered invalid-proof handler with the client id and the default reason
`"Proof verification failed"` (capital P, and non-empty), and responds
`Invalid` with that reason — unless the handler itself fails, in which case
the response degrades to a 500 `Error` with the handler's message.  With no
handler registered the `Invalid` response is produced directly. -/
theorem invalid_reason_dispatch {B P : Type} (app : ServerApp B P)
    (req : ProofRequest) (inputs : List Nat)
    (hdec : decode_inputs req.public_inputs = Except.ok inputs)
    (hver : (app.verify req).1 = Except.ok false) :
    ("Proof verification failed" : String) ≠ ""
    ∧ (∀ handler, app.invalid_proof_handler = some handler →
        Event.invalidFired req.client_id "Proof verification failed" ∈
          (app.verify_handler req).2
        ∧ (handler req.client_id "Proof verification failed" = Except.ok () →
            (app.verify_handler req).1 =
              { status := 400,
                body := VerificationResponse.invalid "Proof verification failed" })
        ∧ (∀ msg,
            handler req.client_id "Proof verification failed" = Except.error msg →
            (app.verify_handler req).1 =
              { status := 500, body := VerificationResponse.error msg }))
    ∧ (app.invalid_proof_handler = none →
        (app.verify_handler req).1 =
          { status := 400,
            body := VerificationResponse.invalid "Proof verification failed" }) := by
  cases hv : app.verify req with
  | mk r evs =>
    have hr : r = Except.ok false := by
      rw [hv] at hver
      exact hver
    subst hr
    refine ⟨by decide, ?_, ?_⟩
    · intro handler hih
      cases hres : handler req.client_id "Proof verification failed" with
      | error e =>
        refine ⟨?_, ?_, ?_⟩
        · simp [ServerApp.verify_handler, hdec, hv, hih, hres]
        · intro hok
          exact absurd hok (by simp)
        · intro msg hmsg
          have hme : e = msg := Except.error.inj hmsg
          subst hme
          simp [ServerApp.verify_handler, hdec, hv, hih, hres]
      | ok u =>
        refine ⟨?_, ?_, ?_⟩
        · simp [ServerApp.verify_handler, hdec, hv, hih, hres]
        · intro hok
          simp [ServerApp.verify_handler, hdec, hv, hih, hres]
        · intro msg hmsg
          exact absurd hmsg (by simp)
    · intro hih
      simp [ServerApp.verify_handler, hdec, hv, hih]

/-- Concrete instantiation of `invalid_reason_dispatch`: a rejecting
verifier with a registered, succeeding invalid-proof handler. -/
theorem invalid_reason_dispatch_witness :
    Event.invalidFired "c" "Proof verification failed" ∈
      ((mkApp (Except.ok false) none (some (fun _ _ => Except.ok ()))
          none).verify_handler
        { client_id := "c", proof := "p", public_inputs := ["7"] }).2 :=
  (((invalid_reason_dispatch
        (mkApp (Except.ok false) none (some (fun _ _ => Except.ok ())) none)
        { client_id := "c", proof := "p", public_inputs := ["7"] } [7]
        (by rfl) (by rfl)).2.1 (fun _ _ => Except.ok ()) (by rfl)).1)

/-- C8: the HTTP status code mirrors the response body — 200 for `Valid`
(whose `result` echoes the request's public-input strings), 400 for
`Invalid`, 500 for `Error` (including decode failure). -/
theorem response_status_mirrors {B P : Type} (app : ServerApp B P)
    (req : ProofRequest) :
    (∀ r, ((app.verify_handler req).1).body = VerificationResponse.valid r →
        ((app.verify_handler req).1).status = 200 ∧ r = some req.public_inputs)
    ∧ (∀ reason,
        ((app.verify_handler req).1).body = VerificationResponse.invalid reason →
        ((app.verify_handler req).1).status = 400)
    ∧ (∀ err, ((app.verify_handler req).1).body = VerificationResponse.error err →
        ((app.verify_handler req).1).status = 500) := by
  cases hdec : decode_inputs req.public_inputs with
  | error e =>
    refine ⟨?_, ?_, ?_⟩ <;> intro x hx <;>
      simp_all [ServerApp.verify_handler, hdec]
  | ok inputs0 =>
    cases hv : app.verify req with
    | mk r evs =>
      cases r with
      | ok b =>
        cases b with
        | true =>
          cases hvh : app.valid_proof_handler with
          | none =>
            refine ⟨?_, ?_, ?_⟩ <;> intro x hx <;>
              simp_all [ServerApp.verify_handler, hdec, hv, hvh]
          | some handler =>
            cases hres : handler req.client_id inputs0 with
            | error e =>
              refine ⟨?_, ?_, ?_⟩ <;> intro x hx <;>
                simp_all [ServerApp.verify_handler, hdec, hv, hvh, hres]
            | ok u =>
              refine ⟨?_, ?_, ?_⟩ <;> intro x hx <;>
                simp_all [ServerApp.verify_handler, hdec, hv, hvh, hres]
        | false =>
          cases hih : app.invalid_proof_handler with
          | none =>
            refine ⟨?_, ?_, ?_⟩ <;> intro x hx <;>
              simp_all [ServerApp.verify_handler, hdec, hv, hih]
          | some handler =>
            cases hres : handler req.client_id "Proof verification failed" with
            | error e =>
              refine ⟨?_, ?_, ?_⟩ <;> intro x hx <;>
                simp_all [ServerApp.verify_handler, hdec, hv, hih, hres]
            | ok u =>
              refine ⟨?_, ?_, ?_⟩ <;> intro x hx <;>
                simp_all [ServerApp.verify_handler, hdec, hv, hih, hres]
      | error e =>
        refine ⟨?_, ?_, ?_⟩ <;> intro x hx <;>
          simp_all [ServerApp.verify_handler, hdec, hv]

/-- Concrete instantiation of `response_status_mirrors`: an accepting run
answers 200 and echoes the request's public-input strings. -/
theorem response_status_mirrors_witness :
    ((mkApp (Except.ok true) none none none).verify_handler
        { client_id := "c", proof := "p", public_inputs := ["7"] }).1.status = 200 :=
  ((response_status_mirrors (mkApp (Except.ok true) none none none)
      { client_id := "c", proof := "p", public_inputs := ["7"] }).1
    (some ["7"]) (by rfl)).1

/-! Embedding of the matrix-multiplication example's valid-proof handler
(src/examples/matrix-multiplication/src/server.rs, lines 66-96). -/

/-- Embedding of Rust's `str::parse::<u64>()`: an optional single leading
`'+'`, then at least one ASCII decimal digit and nothing else, with values
at or above `2^64` overflowing to an error. -/
def parse_u64 (s : String) : Option Nat :=
  let cs := if s.data.head? = some '+' then s.data.tail else s.data
  if cs = [] then none
  else if cs.all Char.isDigit then
    let n := fromDigitsBE 10 (cs.map (fun c => c.toNat - 48))
    if n < 2 ^ 64 then some n else none
  else none

/-- The valid-proof handler closure of the matrix-multiplication server:
re-encode the proved field elements as strings, `split_at(m)` them into the
vector half and the result half, parse the vector half back as `u64`s
dropping failures (`filter_map`), and replace the stored challenge vector
with the freshly generated one exactly when the parsed vector equals it.
`expected` is the mutex contents at the time of the call, `fresh` the output
of `generate_challenge_vector(m)`; the returned list is the mutex contents
after the handler returns. -/
def matrix_valid_proof_handler (m : Nat) (expected fresh : List Nat)
    (public_inputs : List Nat) : List Nat :=
  let string_inputs := public_inputs.map field_to_string
  let vector_str := (string_inputs.splitAt m).1
  let proved_vector := vector_str.filterMap parse_u64
  if proved_vector = expected then fresh else expected

/-- C5: the handler replaces the stored challenge vector with the freshly
generated one if and only if the proved inputs — the first `m` of them,
re-encoded and parsed back as `u64`s — equal the stored vector, and leaves
the stored vector unchanged when they differ.  The length hypothesis is
`split_at`'s panic-freedom precondition. -/
theorem challenge_rotation_iff (m : Nat) (expected fresh : List Nat)
    (public_inputs : List Nat) (hm : m ≤ public_inputs.length) :
    (((public_inputs.map field_to_string).take m).filterMap parse_u64 =
        expected →
      matrix_valid_proof_handler m expected fresh public_inputs = fresh)
    ∧ (((public_inputs.map field_to_string).take m).filterMap parse_u64 ≠
        expected →
      matrix_valid_proof_handler m expected fresh public_inputs = expected) := by
  constructor <;> intro h <;>
    simp [matrix_valid_proof_handler, List.splitAt_eq, h]

/-- Concrete instantiation of `challenge_rotation_iff`: one stored value
`0`, proved inputs `[0]`, fresh vector `[3]` — the match rotates the
stored vector to `[3]`. -/
theorem challenge_rotation_iff_witness :
    1 ≤ ([0] : List Nat).length ∧
      matrix_valid_proof_handler 1 [0] [3] [0] = [3] :=
  ⟨by decide,
   (challenge_rotation_iff 1 [0] [3] [0] (by decide)).1 (by decide)⟩

/-- Concrete instantiation of `circuit_context_log`: a run with a
successful public input `3`, a witness, a failing public-input thunk and a
successful public input `5` logs exactly `[3, 5]`. -/
theorem circuit_context_log_witness :
    (runOps (ZkCircuitContext.new Nat)
        [CircuitOp.publicInput (E := Unit) (V := Unit) (Except.ok 3)
           (fun _ => Except.ok ()),
         CircuitOp.witness (Except.ok 4) (fun _ => Except.ok ()),
         CircuitOp.publicInput (Except.error ()) (fun _ => Except.ok ()),
         CircuitOp.publicInput (Except.ok 5)
           (fun _ => Except.ok ())]).public_inputs = [3, 5] := by
  rw [(circuit_context_log Nat Unit Unit).1]
  rfl
